import Mathlib

/-!
# Trading-journal app: shallow embedding and verification

This file embeds, in Lean 4, the core of the trading-journal application
(TypeScript/React) and proves or refutes the frozen claims about it:

* the trade data model (`src/types.ts`);
* the ledger mutations of `src/App.tsx` (`handleOpenTrade`,
  `handleAddCompleteTrade`, `handleUpdateTrade`, `handleConfirmDelete`,
  `handleImportFromGoogleSheet`, `handleRestore`) and the filter
  (`filteredTrades`);
* the quick-add paste grammar and CSV import of
  `src/components/TradeModal.tsx` (the concatenated file also holds
  `GoogleSheetImportModal`), including the locale-ambiguous numeric
  parser and the date parser;
* the metrics aggregator `calculateMetrics`
  (`src/utils/tradeCalculations.ts`);
* the backup serializer of `src/components/SyncModal.tsx`.

JavaScript numbers are modelled as `ℚ` (the code only performs ring
operations and divisions on them), `Date` values as their
`getTime()` integer (milliseconds since the Unix epoch, `ℤ`), and
`undefined`-able fields as `Option`.  JavaScript's stable `Array.sort`
with the comparator `(a, b) => a.date - b.date` is modelled by
`List.insertionSort` on the date ordering, which is also stable.
-/

namespace TradingJournal

/-! ## Data model (`src/types.ts`) -/

/-- `TradeDirection` enum from `src/types.ts`. -/
inductive TradeDirection where
  | long
  | short
deriving DecidableEq, Repr

/-- The `status` field of a trade: `'open' | 'closed'`. -/
inductive TradeStat where
  | open
  | closed
deriving DecidableEq, Repr

/-- The `Trade` interface of `src/types.ts`.  `date` is the
`Date.getTime()` value in milliseconds; optional numeric fields are
`Option ℚ`; `leverage?: string` is an optional string. -/
structure Trade where
  id : Nat
  date : Int
  asset : String
  direction : TradeDirection
  entryPrice : ℚ
  exitPrice : Option ℚ := none
  size : ℚ
  pnl : Option ℚ := none
  journal : String := ""
  stat : TradeStat
  analysis : Option String := none
  stopLoss : Option ℚ := none
  takeProfit : Option ℚ := none
  leverage : Option String := none
deriving DecidableEq, Repr

/-- A candidate trade: `Omit<Trade, 'id' | 'status'>`, the argument shape
of `handleOpenTrade` and `handleAddCompleteTrade` in `src/App.tsx`. -/
structure Candidate where
  date : Int
  asset : String
  direction : TradeDirection
  entryPrice : ℚ
  exitPrice : Option ℚ := none
  size : ℚ
  pnl : Option ℚ := none
  journal : String := ""
  analysis : Option String := none
  stopLoss : Option ℚ := none
  takeProfit : Option ℚ := none
  leverage : Option String := none
deriving DecidableEq, Repr

/-- The `Strategy` interface of `src/types.ts`. -/
structure Strategy where
  id : String
  name : String
  content : String
deriving DecidableEq, Repr

/-- The app state owned by `App.tsx` that the backup codec covers. -/
structure AppState where
  trades : List Trade
  initialCapital : ℚ
  strategies : List Strategy
  activeStrategyId : Option String
deriving DecidableEq, Repr

/-- The `BackupData` interface of `src/types.ts`: the persisted snapshot.
Trade dates are serialized as ISO strings carrying the full millisecond
value, so a restored `new Date(t.date)` recovers the same `getTime()`;
the `date` field therefore stays an `Int` here. -/
structure BackupData where
  trades : List Trade
  initialCapital : ℚ
  strategies : List Strategy
  activeStrategyId : Option String
  timestamp : String
deriving DecidableEq, Repr

/-- The `FilterState` interface of `src/types.ts`.  `pnlOutcome` is one
of `'all' | 'win' | 'loss'`. -/
inductive PnlOutcome where
  | all
  | win
  | loss
deriving DecidableEq, Repr

/-- Filter criteria (`FilterState` in `src/types.ts`). -/
structure FilterState where
  startDate : String := ""
  endDate : String := ""
  asset : String := ""
  pnlOutcome : PnlOutcome := .all
  tradeId : String := ""
deriving DecidableEq, Repr

/-! ## Ledger operations (`src/App.tsx`) -/

/-- The date ordering used by every ledger re-sort:
`(a, b) => a.date.getTime() - b.date.getTime()`. -/
def dateLE (a b : Trade) : Prop := a.date ≤ b.date

instance : DecidableRel dateLE := fun a b => inferInstanceAs (Decidable (a.date ≤ b.date))

instance : IsTotal Trade dateLE := ⟨fun a b => Int.le_total a.date b.date⟩

instance : IsTrans Trade dateLE := ⟨fun _ _ _ h h' => le_trans h h'⟩

/-- The ledger-wide stable re-sort by ascending date (`.sort((a, b) =>
a.date.getTime() - b.date.getTime())`, a stable sort in JS). -/
def sortByDate (l : List Trade) : List Trade := l.insertionSort dateLE

/-- Re-assign ids `n, n+1, ...` positionally. -/
def renumberFrom : Nat → List Trade → List Trade
  | _, [] => []
  | n, t :: ts => { t with id := n } :: renumberFrom (n + 1) ts

/-- The renumbering pass `sorted.map((t, index) => ({...t, id: index + 1}))`. -/
def renumber (l : List Trade) : List Trade := renumberFrom 1 l

/-- `getNextId` from `src/App.tsx`: `max existing id + 1`, or `1` when
the ledger is empty. -/
def getNextId (l : List Trade) : Nat :=
  match l with
  | [] => 1
  | _ => (l.map Trade.id).foldr max 0 + 1

/-- Build the `Trade` record `{ ...trade, id, status }` from a candidate. -/
def Candidate.toTrade (c : Candidate) (id : Nat) (st : TradeStat) : Trade :=
  { id := id, date := c.date, asset := c.asset, direction := c.direction,
    entryPrice := c.entryPrice, exitPrice := c.exitPrice, size := c.size,
    pnl := c.pnl, journal := c.journal, stat := st, analysis := c.analysis,
    stopLoss := c.stopLoss, takeProfit := c.takeProfit, leverage := c.leverage }

/-- `handleOpenTrade` from `src/App.tsx`: append the candidate as an
`open` trade with the temporary next id, then re-sort and renumber. -/
def handleOpenTrade (prev : List Trade) (c : Candidate) : List Trade :=
  renumber (sortByDate (prev ++ [c.toTrade (getNextId prev) .open]))

/-- The PnL formula shared by the ledger and both parsers:
`(exit - entry) * size` for LONG, `(entry - exit) * size` for SHORT. -/
def computePnl (d : TradeDirection) (entry exit size : ℚ) : ℚ :=
  match d with
  | .long => (exit - entry) * size
  | .short => (entry - exit) * size

/-- `handleAddCompleteTrade` from `src/App.tsx`: `let pnl = 0; if
(exitPrice) { ... }` (note `0` is falsy in JS), then append as `closed`
with that pnl, re-sort, renumber. -/
def handleAddCompleteTrade (prev : List Trade) (c : Candidate) : List Trade :=
  let pnl : ℚ :=
    match c.exitPrice with
    | some e => if e = 0 then 0 else computePnl c.direction c.entryPrice e c.size
    | none => 0
  renumber (sortByDate
    (prev ++ [{ c.toTrade (getNextId prev) .closed with pnl := some pnl }]))

/-- `handleUpdateTrade` from `src/App.tsx`: replace the trade with the
matching id, re-sort, renumber. -/
def handleUpdateTrade (prev : List Trade) (u : Trade) : List Trade :=
  renumber (sortByDate (prev.map fun t => if t.id = u.id then u else t))

/-- `handleConfirmDelete` from `src/App.tsx`: remove by id, re-sort,
renumber. -/
def handleConfirmDelete (prev : List Trade) (id : Nat) : List Trade :=
  renumber (sortByDate (prev.filter fun t => t.id ≠ id))

/-- The renumber-and-close pass of `handleImportFromGoogleSheet`:
`sorted.map((t, index) => ({ ...t, id: index + 1, date: new
Date(t.date), status: 'closed' }))` — note it marks EVERY trade of the
combined list, pre-existing ones included, as `closed`. -/
def renumberCloseFrom : Nat → List Trade → List Trade
  | _, [] => []
  | n, t :: ts => { t with id := n, stat := .closed } :: renumberCloseFrom (n + 1) ts

/-- `handleImportFromGoogleSheet` from `src/App.tsx`: when the imported
batch is non-empty, append it, sort the combined list by date and apply
the renumber-and-close pass. -/
def handleImportFromGoogleSheet (prev newTrades : List Trade) : List Trade :=
  if newTrades.isEmpty then prev
  else renumberCloseFrom 1 (sortByDate (prev ++ newTrades))

/-- `handleCreateBackup` from `src/components/SyncModal.tsx`: the
snapshot embeds the trade list (dates as full-precision ISO strings),
the capital, the strategies, the active strategy id and a timestamp. -/
def serializeBackup (s : AppState) (timestamp : String) : BackupData :=
  { trades := s.trades, initialCapital := s.initialCapital,
    strategies := s.strategies, activeStrategyId := s.activeStrategyId,
    timestamp := timestamp }

/-- The restore committed by `handleRestore` in `src/App.tsx` (after the
shape validation succeeds): `data.trades.map((t, index) => ({...t, id:
index + 1, date: new Date(t.date)})).sort(...).map((t, index) => ({...t,
id: index + 1}))`, plus `data.strategies || []` and
`data.activeStrategyId || null` (`""` is falsy in JS). -/
def handleRestore (d : BackupData) : AppState :=
  { trades := renumber (sortByDate (renumber d.trades)),
    initialCapital := d.initialCapital,
    strategies := d.strategies,
    activeStrategyId :=
      match d.activeStrategyId with
      | some s => if s = "" then none else some s
      | none => none }

/-! ## Character and string primitives

The parsers below work on `List Char`.  JavaScript built-ins are
modelled on the fragment of inputs this app produces: `parseInt`/
`parseFloat` without exponent notation (no sanitized input here can
contain `e`), and `trim` over ASCII whitespace. -/

/-- Whitespace for `String.prototype.trim`. -/
def isWsChar (c : Char) : Bool := c = ' ' ∨ c = '\t' ∨ c = '\n' ∨ c = '\r'

/-- `s.trim()`: drop whitespace from both ends. -/
def trimChars (l : List Char) : List Char :=
  ((l.dropWhile isWsChar).reverse.dropWhile isWsChar).reverse

/-- Split a character list on a separator character, JS
`String.prototype.split` style (`"" → [""]`, separators at the ends
produce empty fields). -/
def splitChar (sep : Char) : List Char → List (List Char)
  | [] => [[]]
  | c :: rest =>
    match splitChar sep rest with
    | [] => if c = sep then [[], []] else [[c]]
    | h :: t => if c = sep then [] :: h :: t else (c :: h) :: t

/-- Split on any separator from a set, for `split(/[\/\-\.]/)`. -/
def splitAnyChar (seps : List Char) : List Char → List (List Char)
  | [] => [[]]
  | c :: rest =>
    match splitAnyChar seps rest with
    | [] => if c ∈ seps then [[], []] else [[c]]
    | h :: t => if c ∈ seps then [] :: h :: t else (c :: h) :: t

/-- `parts.join(',')`. -/
def joinWithComma : List (List Char) → List Char
  | [] => []
  | [p] => p
  | p :: ps => p ++ ',' :: joinWithComma ps

/-- Numeric value of a digit run. -/
def digitsVal (l : List Char) : Nat :=
  l.foldl (fun acc c => acc * 10 + (c.toNat - '0'.toNat)) 0

/-- The rational value `±ip.fp` of a parsed decimal: integer part `ip`,
fraction part `fp`, sign `sgn`.  Written as a single integer numerator
over the power-of-ten denominator. -/
def floatVal (sgn : Int) (ip fp : List Char) : ℚ :=
  ((sgn * ((digitsVal ip : Int) * ((10 ^ fp.length : ℕ) : Int) + (digitsVal fp : Int)) : Int) : ℚ) /
    (((10 ^ fp.length : ℕ) : ℕ) : ℚ)

/-- JS `parseInt(s, 10)`: skip leading whitespace, optional sign, then
the longest decimal-digit prefix; `NaN` (here `none`) when no digit is
read. -/
def jsParseInt (s : List Char) : Option Int :=
  let t := s.dropWhile isWsChar
  let sgn : Int := match t with
    | '-' :: _ => -1
    | _ => 1
  let rest := match t with
    | '-' :: r => r
    | '+' :: r => r
    | r => r
  let ds := rest.takeWhile Char.isDigit
  if ds.isEmpty then none else some (sgn * digitsVal ds)

/-- JS `parseFloat(s)` on exponent-free input: skip leading whitespace,
optional sign, integer digits, optional `.` plus fraction digits; the
parse stops at the first character that cannot extend the number, and is
`NaN` (here `none`) when no digit is read at all. -/
def jsParseFloat (s : List Char) : Option ℚ :=
  let t := s.dropWhile isWsChar
  let sgn : Int := match t with
    | '-' :: _ => -1
    | _ => 1
  let rest := match t with
    | '-' :: r => r
    | '+' :: r => r
    | r => r
  let ip := rest.takeWhile Char.isDigit
  match rest.dropWhile Char.isDigit with
  | '.' :: r =>
    let fp := r.takeWhile Char.isDigit
    if ip.isEmpty ∧ fp.isEmpty then none
    else some (floatVal sgn ip fp)
  | _ => if ip.isEmpty then none else some (floatVal sgn ip [])

/-- `needle.isPrefixOf`-based substring test (`String.includes`). -/
def hasSubstr (needle : List Char) : List Char → Bool
  | [] => needle.isEmpty
  | c :: rest => needle.isPrefixOf (c :: rest) || hasSubstr needle rest

/-- Lowercase a character list (`toLowerCase` on the ASCII range used
by the direction tokens). -/
def lowerChars (l : List Char) : List Char := l.map Char.toLower

/-! ## Calendar model (JS `Date`)

A JS `Date` is its `getTime()` value.  `daysFromCivil` is the standard
proleptic-Gregorian day count (days since 1970-01-01) for a real
calendar triple; `dateUTCms` models `Date.UTC(y, m - 1, d)` including
its field normalization (out-of-range day values roll over into
subsequent months) and its `±8.64e15` ms range limit. -/

/-- Gregorian leap-year rule. -/
def isLeapYear (y : Int) : Bool := (y % 4 = 0 ∧ y % 100 ≠ 0) ∨ y % 400 = 0

/-- Length of month `m` (1-based) of year `y`. -/
def daysInMonth (y m : Int) : Int :=
  if m = 2 then (if isLeapYear y then 29 else 28)
  else if m = 4 ∨ m = 6 ∨ m = 9 ∨ m = 11 then 30
  else 31

/-- Days from 1970-01-01 to the civil date `(y, m, d)` with `m ∈ [1,12]`
(d may be out of range: the count just extends linearly). -/
def daysFromCivil (y m d : Int) : Int :=
  let y' := y - (if m ≤ 2 then 1 else 0)
  let era := (if 0 ≤ y' then y' else y' - 399).fdiv 400
  let yoe := y' - era * 400
  let mp := (m + 9).emod 12
  let doy := (153 * mp + 2).fdiv 5 + d - 1
  let doe := yoe * 365 + yoe.fdiv 4 - yoe.fdiv 100 + doy
  era * 146097 + doe - 719468

/-- Milliseconds per day. -/
def dayMs : Int := 86400000

/-- The JS `Date` range limit: `8.64e15` ms either side of the epoch. -/
def maxTimeValue : Int := 8640000000000000

/-- `new Date(Date.UTC(y, m - 1, d)).getTime()` (the caller passes the
1-based month `m`): two-digit years map into 1900–1999, the month index
is normalized into the year, day values outside the month roll over, and
a result beyond the representable range is `NaN` (`none`). -/
def dateUTCms (y m d : Int) : Option Int :=
  let y := if 0 ≤ y ∧ y ≤ 99 then 1900 + y else y
  let mIdx := m - 1
  let yn := y + mIdx.fdiv 12
  let mn := mIdx.emod 12 + 1
  let ms := (daysFromCivil yn mn 1 + (d - 1)) * dayMs
  if -maxTimeValue ≤ ms ∧ ms ≤ maxTimeValue then some ms else none

/-- `new Date(s).getTime()` for the calendar-date strings this app
exchanges: the strict ISO form `YYYY-MM-DD` denoting a real calendar
date parses to UTC midnight; every other string is treated as an
invalid date. -/
def isoDateMs (s : String) : Option Int :=
  match s.data with
  | [y1, y2, y3, y4, '-', m1, m2, '-', d1, d2] =>
    if (y1.isDigit ∧ y2.isDigit ∧ y3.isDigit ∧ y4.isDigit ∧
        m1.isDigit ∧ m2.isDigit ∧ d1.isDigit ∧ d2.isDigit) then
      let y : Int := digitsVal [y1, y2, y3, y4]
      let m : Int := digitsVal [m1, m2]
      let d : Int := digitsVal [d1, d2]
      if 1 ≤ m ∧ m ≤ 12 ∧ 1 ≤ d ∧ d ≤ daysInMonth y m then
        some (daysFromCivil y m d * dayMs)
      else none
    else none
  | _ => none

/-- `new Date(s).toISOString().split('T')[0]`: for the ISO subset above
the day prefix of the ISO rendering is the input string itself; an
invalid date makes `toISOString` throw (`none`). -/
def jsDateToIso (s : String) : Option String :=
  (isoDateMs s).map fun _ => s

/-! ## Locale-ambiguous numeric parsing
(`parseNumericValue` inside `GoogleSheetImportModal.handleImport`) -/

/-- The characters kept by `value.trim().replace(/[^\d,\.-]/g, '')`. -/
def keepNumChar (c : Char) : Bool := c.isDigit || c = ',' || c = '.' || c = '-'

/-- Last index of `c` in `l` (`lastIndexOf`), `none` for `-1`. -/
def lastIdxOf (c : Char) (l : List Char) : Option Nat :=
  match l with
  | [] => none
  | x :: xs =>
    match lastIdxOf c xs with
    | some i => some (i + 1)
    | none => if x = c then some 0 else none

/-- `replace(/c/g, '')` — remove every occurrence. -/
def removeAllChar (c : Char) (l : List Char) : List Char := l.filter (· ≠ c)

/-- `replace(c, d)` — JS `String.replace` with a string pattern replaces
only the first occurrence. -/
def replaceFirstChar (c d : Char) : List Char → List Char
  | [] => []
  | x :: xs => if x = c then d :: xs else x :: replaceFirstChar c d xs

/-- The separator-disambiguation step of `parseNumericValue`: when both
`,` and `.` occur, the symbol occurring last wins as decimal symbol (all
occurrences of the other are removed, the first occurrence of the winner
becomes `.`); a lone `,` is promoted to the decimal point. -/
def decimalNormalize (t : List Char) : List Char :=
  match lastIdxOf ',' t, lastIdxOf '.' t with
  | some i, some j =>
    if j < i then replaceFirstChar ',' '.' (removeAllChar '.' t)
    else removeAllChar ',' t
  | some _, none => replaceFirstChar ',' '.' t
  | _, _ => t

/-- Result of `parseNumericValue(value, field, isRequired)`: a thrown
error (which skips the CSV row), `undefined`, or a number. -/
inductive NumResult where
  | err
  | missing
  | val (q : ℚ)
deriving DecidableEq, Repr

/-- `parseNumericValue` from `GoogleSheetImportModal.handleImport`
(`src/components/TradeModal.tsx:501`): empty input is an error only on
required fields; otherwise strip everything but digits and `,.-`,
disambiguate the separators, and `parseFloat`. -/
def parseNumericValue (value : Option String) (required : Bool) : NumResult :=
  match value with
  | none => if required then .err else .missing
  | some v =>
    if trimChars v.data = [] then (if required then .err else .missing)
    else
      match jsParseFloat (decimalNormalize ((trimChars v.data).filter keepNumChar)) with
      | none => if required then .err else .missing
      | some q => .val q

/-- Required-field wrapper: a thrown error or a non-number both abort
the row. -/
def requiredNum (v : Option String) : Option ℚ :=
  match parseNumericValue v true with
  | .val q => some q
  | _ => none

/-- Optional-field wrapper: anything unparsable is `undefined`. -/
def optionalNum (v : Option String) : Option ℚ :=
  match parseNumericValue v false with
  | .val q => some q
  | _ => none

/-! ## Quick-add paste grammar (`parsePastedData`,
`src/components/TradeModal.tsx:147`) -/

/-- `parseNumericValue` local to `parsePastedData`
(`src/components/TradeModal.tsx:154`): trim, strip `$` and `,`,
`parseFloat`; empty or `NaN` is `undefined`. -/
def parseQuickNum (value : Option String) : Option ℚ :=
  match value with
  | none => none
  | some v =>
    if trimChars v.data = [] then none
    else jsParseFloat ((trimChars v.data).filter fun c => ¬(c = '$' ∨ c = ','))

/-- The lookahead of `/(?<=\d),(?=\d{3})/`: the next three characters
exist and are digits (a fourth digit does not block the match). -/
def next3Digits (l : List Char) : Bool :=
  match l with
  | a :: b :: c :: _ => a.isDigit && b.isDigit && c.isDigit
  | _ => false

/-- `text.replace(/(?<=\d),(?=\d{3})/g, '')`: remove every comma whose
previous character in the original string is a digit and whose next
three characters are digits.  The lookarounds inspect the original
string, so the "previous character" of a later comma is unaffected by
earlier removals. -/
def stripGroupAux : Bool → List Char → List Char
  | _, [] => []
  | prevDigit, c :: rest =>
    if c = ',' ∧ prevDigit ∧ next3Digits rest then stripGroupAux false rest
    else c :: stripGroupAux c.isDigit rest

/-- The digit-grouping pre-strip applied to the pasted line. -/
def stripGroup (s : String) : List Char := stripGroupAux false s.data

/-- The candidate produced by `parsePastedData`: the date is already an
ISO `YYYY-MM-DD` string, numeric fields are optional. -/
structure PastedTrade where
  date : String
  asset : String
  direction : TradeDirection
  leverage : String
  entryPrice : Option ℚ
  exitPrice : Option ℚ
  stopLoss : Option ℚ
  takeProfit : Option ℚ
  size : Option ℚ
  journal : String
deriving DecidableEq, Repr

/-- `directionStr.toLowerCase().includes('long')`. -/
def containsLong (s : List Char) : Bool := hasSubstr "long".data (lowerChars s)

/-- The paste pipeline after a given pre-strip: split on commas,
require at least 8 parts, trim the first 9 and map them positionally,
join the rest as the journal; an unparseable date token makes
`toISOString` throw and the whole parse return `null`. -/
def parsePastedWith (stripped : List Char) : Option PastedTrade :=
  let parts := splitChar ',' stripped
  if parts.length < 8 then none
  else
    let sp := (parts.take 9).map trimChars
    let part (i : Nat) : Option String :=
      if i < parts.length then some ⟨sp.getD i []⟩ else none
    let journal := if 9 < parts.length then trimChars (joinWithComma (parts.drop 9)) else []
    match jsDateToIso ⟨sp.getD 0 []⟩ with
    | none => none
    | some iso =>
      some { date := iso
             asset := ⟨sp.getD 1 []⟩
             direction := if containsLong (sp.getD 2 []) then .long else .short
             leverage := ⟨sp.getD 3 []⟩
             entryPrice := parseQuickNum (part 4)
             exitPrice := parseQuickNum (part 5)
             stopLoss := parseQuickNum (part 6)
             takeProfit := parseQuickNum (part 7)
             size := parseQuickNum (part 8)
             journal := ⟨journal⟩ }

/-- `parsePastedData` (`src/components/TradeModal.tsx:147`): the digit
grouping pre-strip followed by the positional pipeline. -/
def parsePastedData (text : String) : Option PastedTrade :=
  parsePastedWith (stripGroup text)

/-- The decision taken by `handlePasteDataChange`
(`src/components/TradeModal.tsx:167`): no action when the parse fails;
fill the form when the exit price is present and positive; otherwise
prompt "Is this an open trade?" whose confirm branch opens the trade. -/
inductive PasteAction where
  | noAction
  | fillClosed (d : PastedTrade)
  | promptOpen (d : PastedTrade)
deriving DecidableEq, Repr

/-- `handlePasteDataChange`'s dispatch on `data.exitPrice && data.exitPrice > 0`. -/
def pasteAction (text : String) : PasteAction :=
  match parsePastedData text with
  | none => .noAction
  | some d =>
    match d.exitPrice with
    | some e => if 0 < e then .fillClosed d else .promptOpen d
    | none => .promptOpen d

/-- The candidate handed to `onOpenTrade` by the confirm branch:
`exitPrice` destructured away, `date: new Date(data.date)`,
`size: data.size || 0`, `entryPrice: data.entryPrice || 0`. -/
def pasteOpenCandidate (d : PastedTrade) : Candidate :=
  { date := (isoDateMs d.date).getD 0
    asset := d.asset
    direction := d.direction
    entryPrice := d.entryPrice.getD 0
    exitPrice := none
    size := d.size.getD 0
    pnl := none
    journal := d.journal
    stopLoss := d.stopLoss
    takeProfit := d.takeProfit
    leverage := some d.leverage }

/-! ## CSV import (`GoogleSheetImportModal.handleImport`,
`src/components/TradeModal.tsx:489`) -/

/-- The component step of the date pipeline of `handleImport`
(`src/components/TradeModal.tsx:521-530`): exactly 3 parts are required,
each is `parseInt`ed, the order is `YYYY-MM-DD` when the first part has
4 characters and `DD-MM-YYYY` otherwise, and 2-digit years map by
`≥ 50 → 1900+y`, else `2000+y`. -/
def dateComponents (parts : List (List Char)) : Option (Int × Int × Int) :=
  match parts with
  | [s1, s2, s3] =>
    match jsParseInt s1, jsParseInt s2, jsParseInt s3 with
    | some p1, some p2, some p3 =>
      let (year, month, day) := if s1.length = 4 then (p1, p2, p3) else (p3, p2, p1)
      let year := if year < 100 then (if 50 ≤ year then 1900 + year else 2000 + year) else year
      some (year, month, day)
    | _, _, _ => none
  | _ => none

/-- The date pipeline of `handleImport`: trim, split on `/`, `-` or `.`,
take the components, build `Date.UTC(year, month - 1, day)`, and apply
the single combined rejection test `isNaN(getTime()) || month < 1 ||
month > 12 || day < 1 || day > 31`.  A `NaN` component (a failed
`parseInt`) makes `Date.UTC` return `NaN`, which that test rejects, so
`dateComponents` folds the case into its `none`. -/
def parseDateCSV (raw : String) : Option Int :=
  match dateComponents (splitAnyChar ['/', '-', '.'] (trimChars raw.data)) with
  | some (year, month, day) =>
    match dateUTCms year month day with
    | some ms =>
      if 1 ≤ month ∧ month ≤ 12 ∧ 1 ≤ day ∧ day ≤ 31 then some ms else none
    | none => none
  | none => none

/-- One mapped CSV row before parsing: the raw cell text selected for
each trade field by the (auto or manual) column mapping; `none` is an
unmapped or out-of-range column (`undefined`). -/
structure RawRecord where
  date : Option String := none
  asset : Option String := none
  direction : Option String := none
  leverage : Option String := none
  entryPrice : Option String := none
  exitPrice : Option String := none
  size : Option String := none
  stopLoss : Option String := none
  takeProfit : Option String := none
  justificacion : Option String := none
  notas : Option String := none
deriving DecidableEq, Repr

/-- Direction detection of the CSV path: `long`/`compra` → LONG,
`short`/`venta` → SHORT, anything else is an error. -/
def csvDirection (v : Option String) : Option TradeDirection :=
  let d := lowerChars (v.getD "").data
  if hasSubstr "long".data d || hasSubstr "compra".data d then some .long
  else if hasSubstr "short".data d || hasSubstr "venta".data d then some .short
  else none

/-- The journal assembled from the `justificacion` and `notas` cells. -/
def csvJournal (justificacion notas : Option String) : String :=
  let j := (justificacion.map fun s => trimChars s.data).getD []
  let n := (notas.map fun s => trimChars s.data).getD []
  let first := if j ≠ [] then "Justificación técnica: " ++ (⟨j⟩ : String) else ""
  if n ≠ [] then
    (if first ≠ "" then first ++ "\n\n" else "") ++ "Notas adicionales: " ++ (⟨n⟩ : String)
  else first

/-- The per-row body of `handleImport`
(`src/components/TradeModal.tsx:490-554`): any thrown error skips the
row (`none`); a produced candidate is always `closed` with
`pnl = (exit - entry) * size` resp. `(entry - exit) * size`, the exit
price being required but not checked for positivity. -/
def importRecord (r : RawRecord) : Option Trade :=
  match r.date with
  | none => none
  | some ds =>
    if trimChars ds.data = [] then none
    else
      match parseDateCSV ds with
      | none => none
      | some ms =>
        match requiredNum r.entryPrice, requiredNum r.exitPrice, requiredNum r.size with
        | some entry, some exit, some size =>
          match csvDirection r.direction with
          | none => none
          | some dir =>
            some { id := 0
                   date := ms
                   asset := if (r.asset.getD "") = "" then "N/A" else r.asset.getD ""
                   direction := dir
                   entryPrice := entry
                   exitPrice := some exit
                   size := size
                   pnl := some (computePnl dir entry exit size)
                   journal := csvJournal r.justificacion r.notas
                   stat := .closed
                   analysis := none
                   stopLoss := optionalNum r.stopLoss
                   takeProfit := optionalNum r.takeProfit
                   leverage := some (r.leverage.getD "") }
        | _, _, _ => none

/-! ## Metrics aggregator (`calculateMetrics`,
`src/utils/tradeCalculations.ts`) -/

/-- `'win' | 'loss' | 'none'` of the current streak. -/
inductive StreakKind where
  | win
  | loss
  | neither
deriving DecidableEq, Repr

/-- A point of `chartData`/`equityChartData` (its `pnl` resp. `equity`
value with its label). -/
structure ChartPoint where
  name : String
  value : ℚ
deriving DecidableEq, Repr

/-- The `DashboardMetrics` record of `src/types.ts`. -/
structure DashboardMetrics where
  totalPnl : ℚ
  winRate : ℚ
  lossRate : ℚ
  totalWins : Nat
  totalLosses : Nat
  averageWin : ℚ
  averageLoss : ℚ
  profitFactor : ℚ
  totalTrades : Nat
  maxWinStreakTrades : Nat
  maxLossStreakTrades : Nat
  currentStreakKind : StreakKind
  currentStreakCount : Nat
  chartData : List ChartPoint
  equityChartData : List ChartPoint
deriving DecidableEq, Repr

/-- `t.pnl! > 0` — for an `undefined` pnl the comparison is false. -/
def winPredJs (t : Trade) : Bool :=
  match t.pnl with
  | some p => 0 < p
  | none => false

/-- `t.pnl! <= 0` — for an `undefined` pnl the comparison is false. -/
def lossPredJs (t : Trade) : Bool :=
  match t.pnl with
  | some p => p ≤ 0
  | none => false

/-- `t.pnl!` as a summand.  (`undefined` would poison a JS sum to `NaN`;
the model reads it as `0` and no theorem below evaluates a pnl sum on an
input with an undefined closed pnl.) -/
def pnlValJs (t : Trade) : ℚ := t.pnl.getD 0

/-- Cumulative-pnl series: `name: Trade i+1, pnl: running sum`. -/
def chartSeries (capital : ℚ) : ℚ → Nat → List Trade → List ChartPoint
  | _, _, [] => []
  | acc, i, t :: ts =>
    let acc' := acc + pnlValJs t
    { name := "Trade " ++ toString (i + 1), value := capital + acc' } ::
      chartSeries capital acc' (i + 1) ts

/-- Longest run of consecutive trades with `pnl! > 0` (the else branch
of the scan counts toward the loss streak). -/
def maxStreaks : Nat × Nat × Nat × Nat → List Trade → Nat × Nat
  | (_, _, maxW, maxL), [] => (maxW, maxL)
  | (curW, curL, maxW, maxL), t :: ts =>
    if winPredJs t then maxStreaks (curW + 1, 0, max maxW (curW + 1), maxL) ts
    else maxStreaks (0, curL + 1, maxW, max maxL (curL + 1)) ts

/-- Count from the end of the list backward while the win classification
matches `streakIsWin`. -/
def backStreak (streakIsWin : Bool) (l : List Trade) : Nat :=
  (l.reverse.takeWhile fun t => winPredJs t == streakIsWin).length

/-- `calculateMetrics` from `src/utils/tradeCalculations.ts`: only
closed trades participate; wins are `pnl! > 0`, losses `pnl! <= 0`;
`profitFactor` is 0 when the loss sum is exactly 0; both chart series
are prefixed with a synthetic `Start` point. -/
def calculateMetrics (trades : List Trade) (initialCapital : ℚ) : DashboardMetrics :=
  let closedTrades := trades.filter fun t => decide (t.stat = .closed)
  if closedTrades.isEmpty then
    { totalPnl := 0, winRate := 0, lossRate := 0, totalWins := 0, totalLosses := 0,
      averageWin := 0, averageLoss := 0, profitFactor := 0, totalTrades := 0,
      maxWinStreakTrades := 0, maxLossStreakTrades := 0,
      currentStreakKind := .neither, currentStreakCount := 0,
      chartData := [{ name := "Start", value := 0 }],
      equityChartData := [{ name := "Start", value := initialCapital }] }
  else
    let wins := closedTrades.filter winPredJs
    let losses := closedTrades.filter lossPredJs
    let totalWins := wins.length
    let totalLosses := losses.length
    let totalTrades := closedTrades.length
    let totalWinPnl := (wins.map pnlValJs).sum
    let totalLossPnl := (losses.map pnlValJs).sum
    let sortedTrades := sortByDate closedTrades
    let streaks := maxStreaks (0, 0, 0, 0) sortedTrades
    let curIsWin := ((sortedTrades.getLast?).map winPredJs).getD false
    { totalPnl := (closedTrades.map pnlValJs).sum
      winRate := ((totalWins : ℚ) / (totalTrades : ℚ)) * 100
      lossRate := ((totalLosses : ℚ) / (totalTrades : ℚ)) * 100
      totalWins := totalWins
      totalLosses := totalLosses
      averageWin := if 0 < totalWins then totalWinPnl / (totalWins : ℚ) else 0
      averageLoss := if 0 < totalLosses then totalLossPnl / (totalLosses : ℚ) else 0
      profitFactor := if totalLossPnl ≠ 0 then |totalWinPnl / totalLossPnl| else 0
      totalTrades := totalTrades
      maxWinStreakTrades := streaks.1
      maxLossStreakTrades := streaks.2
      currentStreakKind := if curIsWin then .win else .loss
      currentStreakCount := backStreak curIsWin sortedTrades
      chartData := { name := "Start", value := 0 } :: chartSeries 0 0 0 sortedTrades
      equityChartData :=
        { name := "Start", value := initialCapital } ::
          chartSeries initialCapital 0 0 sortedTrades }

/-! ## Filter engine (`filteredTrades`, `src/App.tsx:266`) -/

/-- The id-filter parse of `filteredTrades`: a `start-end` range when the
expression contains a hyphen (`parts[0]`/`parts[1]` via `parseInt`,
requiring `start <= end`), else a single integer; `none` is a broken id
filter. -/
def parseIdFilter (idFilter : List Char) : Option (Int × Int) :=
  if '-' ∈ idFilter then
    let parts := splitChar '-' idFilter
    match jsParseInt (parts.getD 0 []), jsParseInt (parts.getD 1 []) with
    | some a, some b => if a ≤ b then some (a, b) else none
    | _, _ => none
  else
    match jsParseInt idFilter with
    | some a => some (a, a)
    | none => none

/-- The date/asset/outcome predicate of the non-id branch. -/
def passesOtherFilters (f : FilterState) (t : Trade) : Bool :=
  (match (if f.startDate = "" then none else isoDateMs f.startDate) with
   | some start => decide (start ≤ t.date)
   | none => true) &&
  (match (if f.endDate = "" then none else isoDateMs f.endDate) with
   | some e => decide (t.date ≤ e + (dayMs - 1))
   | none => true) &&
  (f.asset = "" || hasSubstr (lowerChars f.asset.data) (lowerChars t.asset.data)) &&
  (match f.pnlOutcome with
   | .all => true
   | .win => winPredJs t
   | .loss => lossPredJs t)

/-- `filteredTrades` from `src/App.tsx:266`: a non-blank `tradeId`
expression overrides everything — parsed bounds keep the trades whose id
lies in the range, a broken expression yields the empty list; otherwise
the date/asset/outcome filters apply. -/
def filteredTrades (trades : List Trade) (f : FilterState) : List Trade :=
  let idFilter := trimChars f.tradeId.data
  if idFilter ≠ [] then
    match parseIdFilter idFilter with
    | some (a, b) => trades.filter fun t => decide (a ≤ (t.id : Int) ∧ (t.id : Int) ≤ b)
    | none => []
  else trades.filter (passesOtherFilters f)

/-! ## Spec-side definitions

Definitions in this section transcribe sentences of the specification
(not the code); the theorems below compare the code model against
them. -/

/-- Forget the `id` of a trade ("the same trade up to ids"). -/
def eraseId (t : Trade) : Trade := { t with id := 0 }

/-- §3/§4.3 invariant, as the spec words it: sorting the stored trades
by date ascending and numbering them `1..N` in that order yields exactly
the ids already stored on them. -/
def idsPositional (l : List Trade) : Prop :=
  renumber (sortByDate l) = sortByDate l

/-- §3 invariant: a trade is `closed` iff its `pnl` is defined. -/
def closedIffPnlDefined (l : List Trade) : Prop :=
  ∀ t ∈ l, t.stat = .closed ↔ t.pnl ≠ none

/-- The claim-side separator rule for `parseNumber`: with both
separators present, the decimal symbol `dec` (the one occurring last) is
mapped to `.` and the other symbol is removed as a thousands
separator. -/
def rightmostDecimal (t : List Char) (dec other : Char) : List Char :=
  (t.filter (· ≠ other)).map fun c => if c = dec then '.' else c

/-- The wrapping `parseNumericValue` applies around the float parse:
`NaN` is an error on a required field and `undefined` otherwise. -/
def numWrap (required : Bool) : Option ℚ → NumResult
  | some q => .val q
  | none => if required then .err else .missing

/-- Closed trades of a ledger (§4.4: only `closed` trades participate). -/
def closedOf (trades : List Trade) : List Trade :=
  trades.filter fun t => decide (t.stat = .closed)

/-- §4.4: the gross winning PnL — the sum of pnl over closed trades with
`pnl > 0`. -/
def winningPnlSum (trades : List Trade) : ℚ :=
  (((closedOf trades).filter winPredJs).map pnlValJs).sum

/-- §4.4: the gross losing PnL — the sum of pnl over closed trades with
`pnl ≤ 0`. -/
def losingPnlSum (trades : List Trade) : ℚ :=
  (((closedOf trades).filter lossPredJs).map pnlValJs).sum

/-- The claim's reading of the digit-grouping rule: a comma is removed
only when exactly 3 digits follow it (a fourth digit blocks the
removal). -/
def exactly3Digits (l : List Char) : Bool :=
  match l with
  | a :: b :: c :: rest =>
    a.isDigit && b.isDigit && c.isDigit &&
      (match rest with
       | d :: _ => !d.isDigit
       | [] => true)
  | _ => false

/-- The pre-strip under the claim's "exactly 3 following digits"
reading. -/
def stripGroupSpecAux : Bool → List Char → List Char
  | _, [] => []
  | prevDigit, c :: rest =>
    if c = ',' ∧ prevDigit ∧ exactly3Digits rest then stripGroupSpecAux false rest
    else c :: stripGroupSpecAux c.isDigit rest

/-- Quick-add parsing under the claim's "exactly 3" pre-strip. -/
def parsePastedDataSpec (text : String) : Option PastedTrade :=
  parsePastedWith (stripGroupSpecAux false text.data)

/-- Whether the most recently read character (head of the reversed
prefix) is a digit. -/
def headDigit : List Char → Bool
  | p :: _ => p.isDigit
  | [] => false

/-- The amended pre-strip rule, stated from the original string: walking
the string with its already-read prefix at hand, a comma is removed
exactly when the character before it (in the original string) is a digit
and the next three characters are digits. -/
def stripSpecGo : List Char → List Char → List Char
  | _, [] => []
  | pre, c :: rest =>
    if c = ',' ∧ headDigit pre ∧ next3Digits rest then stripSpecGo (c :: pre) rest
    else c :: stripSpecGo (c :: pre) rest

/-- Concrete candidates and ledgers used by the scenario claims. -/
def candA : Candidate :=
  { date := 1704067200000, asset := "BTC/USDT", direction := .long,
    entryPrice := 100, exitPrice := some 110, size := 1 }

/-- The second scenario trade of §8: 2024-01-02, SHORT 100 → 90, size 2. -/
def candB : Candidate :=
  { date := 1704153600000, asset := "BTC/USDT", direction := .short,
    entryPrice := 100, exitPrice := some 90, size := 2 }

/-- The §8 scenario ledger: the two trades entered through
`handleAddCompleteTrade` (dates 2024-01-01 and 2024-01-02 as UTC
midnight timestamps). -/
def scenarioLedger : List Trade :=
  handleAddCompleteTrade (handleAddCompleteTrade [] candA) candB

/-- A 10-trade ledger with dense ids 1..10 in date order. -/
def ledger10 : List Trade :=
  (List.range 10).map fun i =>
    { id := i + 1, date := 1704067200000 + (i : Int) * 86400000, asset := "BTC/USDT",
      direction := .long, entryPrice := 100, size := 1, stat := .open }

/-- A single open trade (no exit, no pnl), as `handleOpenTrade` inserts. -/
def c2OpenCand : Candidate :=
  { date := 1704067200000, asset := "BTC/USDT", direction := .long,
    entryPrice := 100, size := 1 }

/-- A well-formed closed trade arriving from the CSV importer. -/
def c2Imported : Trade :=
  { id := 0, date := 1704153600000, asset := "ETH/USDT", direction := .short,
    entryPrice := 100, exitPrice := some 90, size := 2, pnl := some 20,
    stat := .closed }

/-- A CSV row whose exit cell parses to `-5`. -/
def c7Rec : RawRecord :=
  { date := some "01/01/2024", asset := some "ETH/USDT", direction := some "compra",
    entryPrice := some "100", exitPrice := some "-5", size := some "1" }

/-- A quick-add line whose journal cell is a 4-digit run: the comma
before it is followed by four digits. -/
def c8Line : String := "2024-01-01,BTC,long,10x,1.5,2.5,0.9,2.9,1,2345"

/-- A closed trade whose pnl is `undefined` (the shape the import bug
produces). -/
def c10Bad : Trade :=
  { id := 1, date := 1704067200000, asset := "BTC/USDT", direction := .long,
    entryPrice := 100, size := 1, stat := .closed, pnl := none }

/-! ## Ledger lemmas -/

theorem eraseId_set_id (t : Trade) (n : Nat) : eraseId { t with id := n } = eraseId t := rfl

theorem renumberFrom_map_date (n : Nat) (l : List Trade) :
    (renumberFrom n l).map Trade.date = l.map Trade.date := by
  induction l generalizing n with
  | nil => rfl
  | cons t ts ih => simp [renumberFrom, ih]

theorem map_eraseId_renumberFrom (n : Nat) (l : List Trade) :
    (renumberFrom n l).map eraseId = l.map eraseId := by
  induction l generalizing n with
  | nil => rfl
  | cons t ts ih => simp [renumberFrom, ih, eraseId_set_id]

theorem sorted_dates_iff (l : List Trade) :
    l.Sorted dateLE ↔ (l.map Trade.date).Sorted (· ≤ ·) := by
  unfold List.Sorted
  rw [List.pairwise_map]
  rfl

theorem sorted_renumberFrom {l : List Trade} (h : l.Sorted dateLE) (n : Nat) :
    (renumberFrom n l).Sorted dateLE := by
  rw [sorted_dates_iff] at h ⊢
  rwa [renumberFrom_map_date]

theorem sorted_sortByDate (l : List Trade) : (sortByDate l).Sorted dateLE :=
  List.sorted_insertionSort dateLE l

theorem sortByDate_eq_of_sorted {l : List Trade} (h : l.Sorted dateLE) : sortByDate l = l :=
  h.insertionSort_eq

theorem perm_sortByDate (l : List Trade) : (sortByDate l).Perm l :=
  List.perm_insertionSort dateLE l

theorem map_eraseId_sortByDate (l : List Trade) :
    (sortByDate l).map eraseId = sortByDate (l.map eraseId) :=
  List.map_insertionSort dateLE dateLE eraseId l fun _ _ _ _ => Iff.rfl

theorem renumberFrom_congr {l₁ l₂ : List Trade}
    (h : l₁.map eraseId = l₂.map eraseId) (n : Nat) :
    renumberFrom n l₁ = renumberFrom n l₂ := by
  induction l₁ generalizing l₂ n with
  | nil =>
    cases l₂ with
    | nil => rfl
    | cons b ts₂ => simp at h
  | cons a ts ih =>
    cases l₂ with
    | nil => simp at h
    | cons b ts₂ =>
      simp only [List.map, List.cons.injEq] at h
      obtain ⟨h1, h2⟩ := h
      have hab : ({ a with id := n } : Trade) = { b with id := n } := by
        cases a
        cases b
        simp only [eraseId, Trade.mk.injEq] at h1
        simp [Trade.mk.injEq, h1]
      simp [renumberFrom, hab, ih h2]

theorem idsPositional_of_shape (x : List Trade) : idsPositional (renumber (sortByDate x)) := by
  unfold idsPositional
  have hs' : (renumber (sortByDate x)).Sorted dateLE :=
    sorted_renumberFrom (sorted_sortByDate x) 1
  rw [sortByDate_eq_of_sorted hs']
  exact renumberFrom_congr (map_eraseId_renumberFrom 1 (sortByDate x)) 1

/-! ## Claim theorems -/

/-- C1.  For every ledger state and every mutation — `handleOpenTrade`,
`handleAddCompleteTrade` (insert open/closed), `handleUpdateTrade`,
`handleConfirmDelete` and the bulk restore — the resulting stored trades
satisfy the renumbering invariant: sorting them by date ascending and
assigning ids `1..N` in that order yields exactly the ids already
stored. -/
theorem c1_ids_positional_after_mutations :
    (∀ prev c, idsPositional (handleOpenTrade prev c)) ∧
    (∀ prev c, idsPositional (handleAddCompleteTrade prev c)) ∧
    (∀ prev u, idsPositional (handleUpdateTrade prev u)) ∧
    (∀ prev id, idsPositional (handleConfirmDelete prev id)) ∧
    (∀ d, idsPositional (handleRestore d).trades) :=
  ⟨fun _ _ => idsPositional_of_shape _, fun _ _ => idsPositional_of_shape _,
   fun _ _ => idsPositional_of_shape _, fun _ _ => idsPositional_of_shape _,
   fun _ => idsPositional_of_shape _⟩

/-- C9.  Restoring the snapshot produced by serializing a state
reproduces the same capital, strategies and active strategy id (the
latter provided it is not the JS-falsy empty string, which no reachable
state stores), and the same multiset of trades up to ids, the ids being
re-derived by the deterministic date-sort renumbering. -/
theorem c9_backup_roundtrip (s : AppState) (ts : String)
    (h : s.activeStrategyId ≠ some "") :
    (handleRestore (serializeBackup s ts)).initialCapital = s.initialCapital ∧
    (handleRestore (serializeBackup s ts)).strategies = s.strategies ∧
    (handleRestore (serializeBackup s ts)).activeStrategyId = s.activeStrategyId ∧
    (handleRestore (serializeBackup s ts)).trades = renumber (sortByDate s.trades) ∧
    ((handleRestore (serializeBackup s ts)).trades.map eraseId).Perm
      (s.trades.map eraseId) := by
  have htr : (handleRestore (serializeBackup s ts)).trades = renumber (sortByDate s.trades) := by
    show renumber (sortByDate (renumber s.trades)) = renumber (sortByDate s.trades)
    refine renumberFrom_congr ?_ 1
    rw [map_eraseId_sortByDate, map_eraseId_sortByDate]
    exact congrArg sortByDate (map_eraseId_renumberFrom 1 s.trades)
  refine ⟨rfl, rfl, ?_, htr, ?_⟩
  · show (match s.activeStrategyId with
      | some a => if a = "" then none else some a
      | none => none) = s.activeStrategyId
    match hs : s.activeStrategyId with
    | none => rfl
    | some a =>
      have : a ≠ "" := fun he => h (by rw [hs, he])
      simp [this]
  · rw [htr]
    show List.Perm ((renumberFrom 1 (sortByDate s.trades)).map eraseId) (s.trades.map eraseId)
    rw [map_eraseId_renumberFrom, map_eraseId_sortByDate]
    exact perm_sortByDate (s.trades.map eraseId)

/-- Witness for C9 at a concrete two-trade state (unsorted, so the
restore visibly re-sorts and renumbers). -/
theorem c9_backup_roundtrip_witness :
    ((handleRestore (serializeBackup
        { trades := [c2Imported, { (c2OpenCand.toTrade 5 .open) with id := 5 }],
          initialCapital := 1000, strategies := [⟨"s1", "plan", "text"⟩],
          activeStrategyId := some "s1" } "2024-06-01T00:00:00.000Z")).trades.map eraseId).Perm
      ([c2Imported, { (c2OpenCand.toTrade 5 .open) with id := 5 }].map eraseId) ∧
    (handleRestore (serializeBackup
        { trades := [c2Imported, { (c2OpenCand.toTrade 5 .open) with id := 5 }],
          initialCapital := 1000, strategies := [⟨"s1", "plan", "text"⟩],
          activeStrategyId := some "s1" } "2024-06-01T00:00:00.000Z")).activeStrategyId =
      some "s1" :=
  ⟨(c9_backup_roundtrip _ "2024-06-01T00:00:00.000Z" (by decide)).2.2.2.2,
   (c9_backup_roundtrip _ "2024-06-01T00:00:00.000Z" (by decide)).2.2.1⟩

/-- C2.  The invariant "a trade is `closed` iff its `pnl` is defined"
is broken by the Google-Sheet import: starting from a single open trade
(pnl undefined) and importing one well-formed closed trade, the
renumber-and-close pass stamps `status: 'closed'` onto the pre-existing
open trade while its pnl stays undefined.  (`TradeList` then renders
`trade.pnl!.toFixed(2)` for every closed trade, so the code itself
relies on the invariant the import violates.) -/
theorem c2_import_breaks_closed_iff_pnl :
    ((handleImportFromGoogleSheet (handleOpenTrade [] c2OpenCand) [c2Imported]).map
        fun t => (t.stat, t.pnl)) = [(.closed, none), (.closed, some 20)] ∧
    ¬ closedIffPnlDefined (handleImportFromGoogleSheet (handleOpenTrade [] c2OpenCand)
        [c2Imported]) := by
  constructor
  · decide
  · unfold closedIffPnlDefined
    decide

/-- Counterexample to C10: a list holding one `closed` trade whose
`pnl` is `undefined` (a shape both the `Trade` type and the import path
of C2 permit) has a closed trade, yet `winRate + lossRate = 0`: the
JS comparisons `undefined > 0` and `undefined <= 0` are both false, so
the trade lands in neither bucket. -/
theorem c10_closed_undefined_pnl_neither :
    (closedOf [c10Bad]).length = 1 ∧
    winPredJs c10Bad = false ∧ lossPredJs c10Bad = false ∧
    (calculateMetrics [c10Bad] 0).winRate + (calculateMetrics [c10Bad] 0).lossRate = 0 := by
  refine ⟨rfl, rfl, rfl, ?_⟩
  show ((0:ℕ):ℚ) / ((1:ℕ):ℚ) * 100 + ((0:ℕ):ℚ) / ((1:ℕ):ℚ) * 100 = 0
  norm_num

/-- A defined-pnl list splits exactly into the two JS buckets. -/
theorem filter_win_loss_length {l : List Trade} (h : ∀ t ∈ l, t.pnl ≠ none) :
    (l.filter winPredJs).length + (l.filter lossPredJs).length = l.length := by
  induction l with
  | nil => rfl
  | cons t ts ih =>
    have ht := h t (List.mem_cons_self t ts)
    have ihts := ih fun u hu => h u (List.mem_cons_of_mem t hu)
    match hp : t.pnl with
    | none => exact absurd hp ht
    | some p =>
      have hwin : winPredJs t = decide (0 < p) := by unfold winPredJs; rw [hp]
      have hloss : lossPredJs t = decide (p ≤ 0) := by unfold lossPredJs; rw [hp]
      by_cases hw : (0 : ℚ) < p
      · have h1 : winPredJs t = true := by rw [hwin]; exact decide_eq_true hw
        have h2 : lossPredJs t = false := by
          rw [hloss]; exact decide_eq_false (not_le_of_lt hw)
        simp [List.filter_cons, h1, h2, List.length_cons]
        omega
      · have h1 : winPredJs t = false := by rw [hwin]; exact decide_eq_false hw
        have h2 : lossPredJs t = true := by rw [hloss]; exact decide_eq_true (le_of_not_lt hw)
        simp [List.filter_cons, h1, h2, List.length_cons]
        omega

/-- C6.  `profitFactor` is the absolute value of the winning-PnL sum
over the losing-PnL sum, and 0 when the losing sum is exactly 0; on the
§8 scenario ledger (2024-01-01 LONG 100→110 size 1; 2024-01-02 SHORT
100→90 size 2) the stored pnls are [10, 20], the win rate 100, the
profit factor 0 and the equity curve at capital 1000 is
[1000, 1010, 1030]. -/
theorem c6_profit_factor_and_scenario :
    (∀ (ts : List Trade) (cap : ℚ), (calculateMetrics ts cap).profitFactor =
        if losingPnlSum ts = 0 then 0 else |winningPnlSum ts / losingPnlSum ts|) ∧
    scenarioLedger.map Trade.pnl = [some 10, some 20] ∧
    (calculateMetrics scenarioLedger 1000).winRate = 100 ∧
    (calculateMetrics scenarioLedger 1000).profitFactor = 0 ∧
    (calculateMetrics scenarioLedger 1000).equityChartData.map ChartPoint.value =
      [1000, 1010, 1030] := by
  refine ⟨fun ts cap => ?_, ?_, ?_, ?_, ?_⟩
  · unfold calculateMetrics winningPnlSum losingPnlSum closedOf
    by_cases he : (ts.filter fun t => decide (t.stat = TradeStat.closed)).isEmpty
    · have hnil : ts.filter (fun t => decide (t.stat = TradeStat.closed)) = [] :=
        List.isEmpty_iff.mp he
      simp [he, hnil]
    · by_cases hL : ((((ts.filter fun t => decide (t.stat = TradeStat.closed)).filter
          lossPredJs).map pnlValJs).sum : ℚ) = 0
      · simp [he, hL]
      · simp [he, hL]
  · norm_num [scenarioLedger, handleAddCompleteTrade, candA, candB, computePnl, sortByDate,
      renumber, renumberFrom, getNextId, Candidate.toTrade, List.insertionSort,
      List.orderedInsert, dateLE]
  · norm_num [scenarioLedger, handleAddCompleteTrade, candA, candB, computePnl, sortByDate,
      renumber, renumberFrom, getNextId, Candidate.toTrade, List.insertionSort,
      List.orderedInsert, dateLE, calculateMetrics, winPredJs, lossPredJs, pnlValJs]
  · norm_num [scenarioLedger, handleAddCompleteTrade, candA, candB, computePnl, sortByDate,
      renumber, renumberFrom, getNextId, Candidate.toTrade, List.insertionSort,
      List.orderedInsert, dateLE, calculateMetrics, winPredJs, lossPredJs, pnlValJs]
  · norm_num [scenarioLedger, handleAddCompleteTrade, candA, candB, computePnl, sortByDate,
      renumber, renumberFrom, getNextId, Candidate.toTrade, List.insertionSort,
      List.orderedInsert, dateLE, calculateMetrics, winPredJs, lossPredJs, pnlValJs,
      chartSeries]

/-- Amended C10.  For every trades list in which every closed trade has
a defined pnl (the data-model invariant), the closed trades partition
exactly into wins (`pnl > 0`) and losses (`pnl ≤ 0`) — never both,
never neither — and `winRate + lossRate = 100` in exact arithmetic when
at least one closed trade exists; with no closed trades both rates are
0.  (Without the defined-pnl hypothesis the claim fails, see the
counterexample: a closed trade with `pnl` undefined counts in neither
bucket.) -/
theorem c10_rates_partition_amended (ts : List Trade) (cap : ℚ)
    (h : ∀ t ∈ ts, t.stat = .closed → t.pnl ≠ none) :
    (closedOf ts ≠ [] →
      (calculateMetrics ts cap).winRate + (calculateMetrics ts cap).lossRate = 100) ∧
    (closedOf ts = [] →
      (calculateMetrics ts cap).winRate = 0 ∧ (calculateMetrics ts cap).lossRate = 0) ∧
    (∀ t ∈ ts, t.stat = .closed → (winPredJs t = true ↔ ¬ lossPredJs t = true)) := by
  have hpnl : ∀ t ∈ closedOf ts, t.pnl ≠ none := by
    intro t htm
    have hm := List.mem_filter.mp htm
    exact h t hm.1 (of_decide_eq_true hm.2)
  refine ⟨fun hne => ?_, fun hnil => ?_, fun t ht hc => ?_⟩
  · have hlen := filter_win_loss_length hpnl
    have hemp : (closedOf ts).isEmpty = false := by
      cases hcc : closedOf ts with
      | nil => exact absurd hcc hne
      | cons a l => rfl
    have hT : (((closedOf ts).length : ℚ)) ≠ 0 := by
      have h0 : (closedOf ts).length ≠ 0 := fun h0 => hne (List.length_eq_zero.mp h0)
      exact_mod_cast Nat.cast_ne_zero.mpr h0
    unfold calculateMetrics
    unfold closedOf at hemp hlen hT
    simp only [hemp, Bool.false_eq_true, if_false]
    field_simp
    push_cast [← hlen]
    ring_nf
    simp [List.filter_filter]
  · unfold calculateMetrics
    unfold closedOf at hnil
    simp [hnil]
  · have hp := h t ht hc
    match hv : t.pnl with
    | none => exact absurd hv hp
    | some p =>
      have hwin : winPredJs t = decide (0 < p) := by unfold winPredJs; rw [hv]
      have hloss : lossPredJs t = decide (p ≤ 0) := by unfold lossPredJs; rw [hv]
      rw [hwin, hloss]
      simp only [decide_eq_true_eq]
      exact lt_iff_not_le

/-- Witness for the amended C10 on the two-trade scenario ledger. -/
theorem c10_rates_partition_amended_witness :
    (calculateMetrics scenarioLedger 0).winRate +
      (calculateMetrics scenarioLedger 0).lossRate = 100 :=
  (c10_rates_partition_amended scenarioLedger 0 (by decide)).1 (by decide)

/-- Counterexample to C5's scenario: on a legitimate 10-trade ledger
(dense ids 1..10, date-sorted), the id-range filter `"4-19"` parses into
valid bounds and returns the seven trades with ids 4..10 — not the
empty set the claim asserts. -/
theorem c5_range_filter_not_empty :
    (filteredTrades ledger10 { tradeId := "4-19" }).map Trade.id =
      [4, 5, 6, 7, 8, 9, 10] ∧
    ledger10.length = 10 ∧ idsPositional ledger10 := by
  refine ⟨by decide, rfl, ?_⟩
  unfold idsPositional
  decide

/-- Amended C5.  A non-blank `tradeId` expression that fails to parse
into valid bounds yields the empty set (never a fallback to the full
ledger); `"abc"` yields the empty set on every ledger; but `"4-19"`
parses into the bounds `[4, 19]` and returns every trade whose id lies
in that range (the seven trades 4..10 on a 10-trade ledger). -/
theorem c5_broken_id_filter_empty :
    (∀ (ts : List Trade) (f : FilterState), trimChars f.tradeId.data ≠ [] →
        parseIdFilter (trimChars f.tradeId.data) = none → filteredTrades ts f = []) ∧
    (∀ ts : List Trade, filteredTrades ts { tradeId := "abc" } = []) ∧
    (∀ ts : List Trade, filteredTrades ts { tradeId := "4-19" } =
        ts.filter fun t => decide (4 ≤ (t.id : Int) ∧ (t.id : Int) ≤ 19)) ∧
    (filteredTrades ledger10 { tradeId := "4-19" }).length = 7 := by
  refine ⟨fun ts f h1 h2 => ?_, fun ts => rfl, fun ts => rfl, by decide⟩
  unfold filteredTrades
  rw [if_pos h1, h2]

/-- Witness for the amended C5: the broken range `"5-2"` (start greater
than end) empties the view. -/
theorem c5_broken_id_filter_empty_witness :
    filteredTrades ledger10 { tradeId := "5-2" } = [] :=
  c5_broken_id_filter_empty.1 ledger10 { tradeId := "5-2" } (by decide) (by decide)

/-- Counterexample to C7's CSV half: a mapped row whose exit cell is
`"-5"` (entry 100, size 1, direction `compra`) is not treated as an open
trade — `handleImport` keeps the non-positive exit price, marks the
candidate `closed` and computes `pnl = (-5 - 100) * 1 = -105`. -/
theorem c7_csv_exit_not_treated_absent :
    (importRecord c7Rec).map (fun t => (t.stat, t.exitPrice, t.pnl)) =
      some (.closed, some (-5), some (-105)) := by
  have e5 : digitsVal ['5'] = 5 := rfl
  have e100 : digitsVal ['1', '0', '0'] = 100 := rfl
  have e1 : digitsVal ['1'] = 1 := rfl
  have e0 : digitsVal [] = 0 := rfl
  show some ((TradeStat.closed, some (floatVal (-1) ['5'] []),
      some (computePnl .long (floatVal 1 ['1', '0', '0'] []) (floatVal (-1) ['5'] [])
        (floatVal 1 ['1'] [])))) = _
  unfold floatVal computePnl
  rw [e5, e100, e1, e0]
  norm_num

/-- Amended C7.  In the quick-add grammar an exit price that is missing
or parses to a value ≤ 0 routes the paste to the confirm-open flow, and
the candidate the confirm branch inserts is an `open` trade with no
`pnl` and no `exitPrice`; the column-mapped CSV grammar, by contrast,
requires the exit field and every candidate it produces is `closed`
with a defined `pnl` (a parseable exit ≤ 0 included). -/
theorem c7_exit_policy_amended :
    (∀ (text : String) (d : PastedTrade), parsePastedData text = some d →
        (∀ e, d.exitPrice = some e → e ≤ 0) → pasteAction text = .promptOpen d) ∧
    (∀ (d : PastedTrade) (n : Nat),
        ((pasteOpenCandidate d).toTrade n .open).stat = .open ∧
        ((pasteOpenCandidate d).toTrade n .open).pnl = none ∧
        ((pasteOpenCandidate d).toTrade n .open).exitPrice = none) ∧
    (∀ (r : RawRecord) (t : Trade), importRecord r = some t →
        t.stat = .closed ∧ t.pnl ≠ none) := by
  refine ⟨fun text d h he => ?_, fun d n => ⟨rfl, rfl, rfl⟩, fun r t h => ?_⟩
  · unfold pasteAction
    rw [h]
    match hx : d.exitPrice with
    | none => simp [hx]
    | some e => simp [hx, not_lt_of_le (he e hx)]
  · unfold importRecord at h
    repeat' split at h
    all_goals simp_all
    all_goals subst h
    all_goals exact ⟨rfl, by simp⟩

/-- The parse of the quick-add line used by the C7 witness: exit cell
empty, every other numeric cell parseable. -/
def c7PasteParsed : PastedTrade :=
  { date := "2024-01-01", asset := "BTC", direction := .long, leverage := "10x",
    entryPrice := some (floatVal 1 ['1', '0', '0'] []),
    exitPrice := none,
    stopLoss := some (floatVal 1 ['0'] ['9']),
    takeProfit := some (floatVal 1 ['1'] ['2']),
    size := some (floatVal 1 ['1'] []),
    journal := "" }

/-- Witness for the amended C7: the exit-less quick-add line goes to the
confirm-open flow. -/
theorem c7_exit_policy_amended_witness :
    pasteAction "2024-01-01,BTC,long,10x,100,,0.9,1.2,1" = .promptOpen c7PasteParsed :=
  c7_exit_policy_amended.1 _ c7PasteParsed rfl (by intro e he; cases he)

/-- `dateComponents` requires exactly 3 split parts. -/
theorem dateComponents_eq_none {parts : List (List Char)} (h : parts.length ≠ 3) :
    dateComponents parts = none := by
  match parts with
  | [] => rfl
  | [a] => rfl
  | [a, b] => rfl
  | [a, b, c] => exact absurd rfl h
  | a :: b :: c :: d :: rest => rfl

/-- Counterexample to C4: `"31/02/2024"` maps to month 2, day 31 — not a
real calendar date (February 2024 has 29 days) — yet `parseDate` does
not fail: `Date.UTC` rolls the excess days over, and the result equals
the parse of `"02/03/2024"` (March 2). -/
theorem c4_feb31_accepted :
    parseDateCSV "31/02/2024" ≠ none ∧
    parseDateCSV "31/02/2024" = parseDateCSV "02/03/2024" ∧
    daysInMonth 2024 2 < 31 := by decide

/-- Amended C4.  `parseDate` fails when the trimmed string does not
split into exactly 3 components, and when the components (under the
4-digit-first-component order rule and the 2-digit-year rule, both
inside `dateComponents`) violate `month ∈ [1,12]` or `day ∈ [1,31]` or
fall outside the representable `Date` range; within those bounds it
succeeds with the `Date.UTC` value even when the combination is not a
real calendar date — the excess days roll over into the following month
instead of failing.  `parseDate("31/01/2024")` and
`parseDate("2024-01-31")` agree, and `parseDate("31-31-2024")` fails. -/
theorem c4_parseDate_amended :
    (∀ raw : String, (splitAnyChar ['/', '-', '.'] (trimChars raw.data)).length ≠ 3 →
        parseDateCSV raw = none) ∧
    (∀ (raw : String) (y m d : Int),
        dateComponents (splitAnyChar ['/', '-', '.'] (trimChars raw.data)) = some (y, m, d) →
        ¬(1 ≤ m ∧ m ≤ 12 ∧ 1 ≤ d ∧ d ≤ 31) → parseDateCSV raw = none) ∧
    (∀ (raw : String) (y m d : Int),
        dateComponents (splitAnyChar ['/', '-', '.'] (trimChars raw.data)) = some (y, m, d) →
        (1 ≤ m ∧ m ≤ 12 ∧ 1 ≤ d ∧ d ≤ 31) → parseDateCSV raw = dateUTCms y m d) ∧
    (parseDateCSV "31/01/2024" = parseDateCSV "2024-01-31" ∧
      parseDateCSV "31/01/2024" ≠ none ∧ parseDateCSV "31-31-2024" = none) := by
  refine ⟨fun raw h3 => ?_, fun raw y m d hc hb => ?_, fun raw y m d hc hb => ?_, by decide⟩
  · unfold parseDateCSV
    rw [dateComponents_eq_none h3]
  · unfold parseDateCSV
    rw [hc]
    match hu : dateUTCms y m d with
    | some ms => simp [hu, hb]
    | none => simp [hu]
  · unfold parseDateCSV
    rw [hc]
    match hu : dateUTCms y m d with
    | some ms => simp [hu, hb]
    | none => simp [hu]

/-- Witness for the amended C4: the rolled-over parse of `"31/02/2024"`
through the success clause. -/
theorem c4_parseDate_amended_witness :
    parseDateCSV "31/02/2024" = dateUTCms 2024 2 31 :=
  c4_parseDate_amended.2.2.1 "31/02/2024" 2024 2 31 (by decide) (by decide)

/-! ## Separator-policy lemmas (`parseNumericValue`) -/

theorem dropWhile_filter_false {p q : Char → Bool} (hpq : ∀ c, q c = true → p c = false) :
    ∀ l : List Char, (l.dropWhile q).filter p = l.filter p := by
  intro l
  induction l with
  | nil => rfl
  | cons c rest ih =>
    by_cases hc : q c = true
    · rw [List.dropWhile_cons_of_pos hc, ih, List.filter_cons, hpq c hc]
      simp
    · rw [List.dropWhile_cons_of_neg hc]

theorem ws_not_keep : ∀ c, isWsChar c = true → keepNumChar c = false := by
  intro c hc
  unfold isWsChar at hc
  rcases of_decide_eq_true hc with h | h | h | h <;> subst h <;> rfl

theorem filter_keep_trimChars (l : List Char) :
    (trimChars l).filter keepNumChar = l.filter keepNumChar := by
  unfold trimChars
  rw [List.filter_reverse, dropWhile_filter_false ws_not_keep, List.filter_reverse,
    List.reverse_reverse, dropWhile_filter_false ws_not_keep]

theorem trimChars_eq_nil_filter {l : List Char} (h : trimChars l = []) :
    l.filter keepNumChar = [] := by
  rw [← filter_keep_trimChars, h]
  rfl

/-- The error/`undefined` wrapping around the float parse, factored. -/
theorem parseNumericValue_core (s : String) (req : Bool) :
    parseNumericValue (some s) req =
      numWrap req (jsParseFloat (decimalNormalize (s.data.filter keepNumChar))) := by
  unfold parseNumericValue
  show (if trimChars s.data = [] then (if req = true then NumResult.err else NumResult.missing)
      else match jsParseFloat (decimalNormalize ((trimChars s.data).filter keepNumChar)) with
        | none => if req = true then NumResult.err else NumResult.missing
        | some q => NumResult.val q) = _
  by_cases h : trimChars s.data = []
  · rw [if_pos h, trimChars_eq_nil_filter h]
    cases req <;> rfl
  · rw [if_neg h, filter_keep_trimChars]
    cases jsParseFloat (decimalNormalize (s.data.filter keepNumChar)) <;> rfl

theorem lastIdxOf_eq_none_iff {c : Char} : ∀ {l : List Char}, lastIdxOf c l = none ↔ c ∉ l := by
  intro l
  induction l with
  | nil => simp [lastIdxOf]
  | cons x xs ih =>
    unfold lastIdxOf
    match hx : lastIdxOf c xs with
    | some i =>
      simp only [hx]
      have hc : c ∈ xs := by
        by_contra hn
        rw [ih.mpr hn] at hx
        cases hx
      constructor
      · intro h; cases h
      · intro h; exact (h (List.mem_cons_of_mem x hc)).elim
    | none =>
      simp only [hx]
      have hnotin := ih.mp hx
      constructor
      · intro h hmem
        rcases List.mem_cons.mp hmem with he | hm
        · subst he; simp at h
        · exact hnotin hm
      · intro h
        have hxc : ¬ x = c := fun he => h (he ▸ List.mem_cons_self x xs)
        simp [hxc]

theorem map_sep_id {c d : Char} {l : List Char} (h : c ∉ l) :
    l.map (fun x => if x = c then d else x) = l := by
  induction l with
  | nil => rfl
  | cons x xs ih =>
    have hx : ¬ x = c := fun he => h (he ▸ List.mem_cons_self x xs)
    simp only [List.map, if_neg hx, ih (fun hm => h (List.mem_cons_of_mem x hm))]

/-- `String.replace` with a pattern occurring at most once is the
pointwise substitution. -/
theorem replaceFirst_eq_map {c d : Char} : ∀ {l : List Char}, l.count c ≤ 1 →
    replaceFirstChar c d l = l.map (fun x => if x = c then d else x) := by
  intro l
  induction l with
  | nil => exact fun _ => rfl
  | cons x xs ih =>
    intro hcount
    by_cases hx : x = c
    · subst hx
      have hxs : xs.count x = 0 := by
        rw [List.count_cons_self] at hcount
        omega
      have hnot : x ∉ xs := List.count_eq_zero.mp hxs
      unfold replaceFirstChar
      rw [if_pos rfl]
      simp only [List.map]
      rw [map_sep_id hnot]
      simp
    · have hne : (x == c) = false := beq_eq_false_iff_ne.mpr hx
      have hcount' : xs.count c ≤ 1 := by
        rw [List.count_cons, hne] at hcount
        simpa using hcount
      unfold replaceFirstChar
      rw [if_neg hx]
      simp only [List.map, if_neg hx, ih hcount']

theorem count_comma_filter_dot (t : List Char) :
    (t.filter (· ≠ '.')).count ',' = t.count ',' :=
  List.count_filter (by decide)

/-- Both separators present, comma last: remove the dots, the single
comma becomes the decimal point. -/
theorem decimalNormalize_comma_last {t : List Char} {i j : Nat}
    (hi : lastIdxOf ',' t = some i) (hj : lastIdxOf '.' t = some j) (hji : j < i)
    (hc : t.count ',' = 1) : decimalNormalize t = rightmostDecimal t ',' '.' := by
  unfold decimalNormalize
  rw [hi, hj]
  simp only [if_pos hji]
  unfold rightmostDecimal removeAllChar
  have hle : ((t.filter (· ≠ '.')).count ',') ≤ 1 := by
    rw [count_comma_filter_dot, hc]
  exact replaceFirst_eq_map hle

/-- Both separators present, dot last: all commas are removed and the
dot keeps its role. -/
theorem decimalNormalize_dot_last {t : List Char} {i j : Nat}
    (hi : lastIdxOf ',' t = some i) (hj : lastIdxOf '.' t = some j) (hij : i < j) :
    decimalNormalize t = rightmostDecimal t '.' ',' := by
  unfold decimalNormalize
  rw [hi, hj]
  simp only [if_neg (lt_asymm hij)]
  unfold rightmostDecimal removeAllChar
  exact ((List.map_congr_left fun a _ => by by_cases h : a = '.' <;> simp [h]).trans
    (List.map_id _)).symm

/-- Only a comma present: it is promoted to the decimal point. -/
theorem decimalNormalize_only_comma {t : List Char} {i : Nat}
    (hi : lastIdxOf ',' t = some i) (hj : lastIdxOf '.' t = none)
    (hc : t.count ',' = 1) : decimalNormalize t = rightmostDecimal t ',' '.' := by
  unfold decimalNormalize
  rw [hi, hj]
  unfold rightmostDecimal
  have hdot : '.' ∉ t := lastIdxOf_eq_none_iff.mp hj
  have hfil : t.filter (· ≠ '.') = t :=
    List.filter_eq_self.mpr fun a ha => decide_eq_true fun he => hdot (he ▸ ha)
  rw [hfil]
  exact replaceFirst_eq_map (le_of_eq hc)

/-- Neither separator present: the string is parsed as is. -/
theorem decimalNormalize_no_sep {t : List Char}
    (hi : lastIdxOf ',' t = none) (hj : lastIdxOf '.' t = none) :
    decimalNormalize t = t := by
  unfold decimalNormalize
  rw [hi, hj]

/-- C3.  `parseNumber` ignores currency symbols and whitespace (its
result is invariant under dropping every character other than digits and
`,.-`); when both `,` and `.` occur in the sanitized input, the
separator symbol occurring last is the decimal point (assuming it occurs
once, as in any number with a single decimal point) and every occurrence
of the other symbol is removed as a thousands grouping; a lone `,` is
the decimal point; with no separator a standard decimal parse applies.
Consequently `parseNumber("1.234,56")` and `parseNumber("1,234.56")`
both equal 1234.56, and `parseNumber("")` on a required field errors. -/
theorem c3_parseNumber_policy :
    (∀ (s : String) (req : Bool),
        parseNumericValue (some s) req =
          parseNumericValue (some ⟨s.data.filter keepNumChar⟩) req) ∧
    (∀ (s : String) (req : Bool) (i j : Nat),
        lastIdxOf ',' (s.data.filter keepNumChar) = some i →
        lastIdxOf '.' (s.data.filter keepNumChar) = some j → j < i →
        (s.data.filter keepNumChar).count ',' = 1 →
        parseNumericValue (some s) req =
          numWrap req (jsParseFloat (rightmostDecimal (s.data.filter keepNumChar) ',' '.'))) ∧
    (∀ (s : String) (req : Bool) (i j : Nat),
        lastIdxOf ',' (s.data.filter keepNumChar) = some i →
        lastIdxOf '.' (s.data.filter keepNumChar) = some j → i < j →
        parseNumericValue (some s) req =
          numWrap req (jsParseFloat (rightmostDecimal (s.data.filter keepNumChar) '.' ','))) ∧
    (∀ (s : String) (req : Bool) (i : Nat),
        lastIdxOf ',' (s.data.filter keepNumChar) = some i →
        lastIdxOf '.' (s.data.filter keepNumChar) = none →
        (s.data.filter keepNumChar).count ',' = 1 →
        parseNumericValue (some s) req =
          numWrap req (jsParseFloat (rightmostDecimal (s.data.filter keepNumChar) ',' '.'))) ∧
    (∀ (s : String) (req : Bool),
        lastIdxOf ',' (s.data.filter keepNumChar) = none →
        lastIdxOf '.' (s.data.filter keepNumChar) = none →
        parseNumericValue (some s) req =
          numWrap req (jsParseFloat (s.data.filter keepNumChar))) ∧
    (parseNumericValue (some "1.234,56") true = .val (123456 / 100) ∧
      parseNumericValue (some "1,234.56") true = .val (123456 / 100) ∧
      parseNumericValue (some "") true = .err ∧
      parseNumericValue none true = .err) := by
  refine ⟨fun s req => ?_, fun s req i j hi hj hji hc => ?_, fun s req i j hi hj hij => ?_,
    fun s req i hi hj hc => ?_, fun s req hi hj => ?_, ?_, ?_, rfl, rfl⟩
  · rw [parseNumericValue_core, parseNumericValue_core]
    have hdata : (String.mk (s.data.filter keepNumChar)).data = s.data.filter keepNumChar := rfl
    have hff : (s.data.filter keepNumChar).filter keepNumChar = s.data.filter keepNumChar :=
      List.filter_eq_self.mpr fun a ha => List.of_mem_filter ha
    rw [hdata, hff]
  · rw [parseNumericValue_core, decimalNormalize_comma_last hi hj hji hc]
  · rw [parseNumericValue_core, decimalNormalize_dot_last hi hj hij]
  · rw [parseNumericValue_core, decimalNormalize_only_comma hi hj hc]
  · rw [parseNumericValue_core, decimalNormalize_no_sep hi hj]
  · have h1 : digitsVal ['1', '2', '3', '4'] = 1234 := rfl
    have h2 : digitsVal ['5', '6'] = 56 := rfl
    show NumResult.val (floatVal 1 ['1', '2', '3', '4'] ['5', '6']) = .val (123456 / 100)
    unfold floatVal
    rw [h1, h2]
    simp only [NumResult.val.injEq]
    norm_num
  · have h1 : digitsVal ['1', '2', '3', '4'] = 1234 := rfl
    have h2 : digitsVal ['5', '6'] = 56 := rfl
    show NumResult.val (floatVal 1 ['1', '2', '3', '4'] ['5', '6']) = .val (123456 / 100)
    unfold floatVal
    rw [h1, h2]
    simp only [NumResult.val.injEq]
    norm_num

/-- Witness for C3 at `"1.234,56"` (comma occurring last, at index 5;
the dot at index 1). -/
theorem c3_parseNumber_policy_witness :
    parseNumericValue (some "1.234,56") true =
      numWrap true (jsParseFloat
        (rightmostDecimal ("1.234,56".data.filter keepNumChar) ',' '.')) :=
  c3_parseNumber_policy.2.1 "1.234,56" true 5 1 (by decide) (by decide) (by decide) (by decide)

/-! ## Quick-add grammar lemmas -/

/-- The walked pre-strip (`stripGroupAux` with its previous-is-digit
accumulator) is the prefix-context rule `stripSpecGo`. -/
theorem stripGroupAux_eq_go : ∀ (l pre : List Char),
    stripGroupAux (headDigit pre) l = stripSpecGo pre l := by
  intro l
  induction l with
  | nil => intro pre; rfl
  | cons c rest ih =>
    intro pre
    unfold stripGroupAux stripSpecGo
    by_cases hc : c = ',' ∧ (headDigit pre : Prop) ∧ (next3Digits rest : Prop)
    · rw [if_pos hc, if_pos hc]
      have hfd : (false : Bool) = headDigit (c :: pre) := by
        obtain ⟨hc1, -, -⟩ := hc
        subst hc1
        rfl
      rw [hfd]
      exact ih (c :: pre)
    · rw [if_neg hc, if_neg hc]
      have hcd : c.isDigit = headDigit (c :: pre) := rfl
      rw [hcd]
      exact congrArg (c :: ·) (ih (c :: pre))

/-- Counterexample to C8's "exactly 3 following digits": on a line whose
journal cell is the 4-digit run `2345`, the code's lookahead
`(?=\d{3})` still strips the comma before it (four digits satisfy "the
next three characters are digits"), merging it into the size to give
`size = 12345, journal = ""`; under the claim's exactly-3 reading the
comma survives and the line parses as `size = 1, journal = "2345"`. -/
theorem c8_strip_lookahead_differs :
    (parsePastedData c8Line).map (fun d => (d.size, d.journal)) =
      some (some 12345, "") ∧
    (parsePastedDataSpec c8Line).map (fun d => (d.size, d.journal)) =
      some (some 1, "2345") := by
  constructor
  · have e : digitsVal ['1', '2', '3', '4', '5'] = 12345 := rfl
    have e0 : digitsVal [] = 0 := rfl
    show some ((some (floatVal 1 ['1', '2', '3', '4', '5'] []), "")) = some (some 12345, "")
    unfold floatVal
    rw [e, e0]
    norm_num
  · have e : digitsVal ['1'] = 1 := rfl
    have e0 : digitsVal [] = 0 := rfl
    show some ((some (floatVal 1 ['1'] []), "2345")) = some (some 1, "2345")
    unfold floatVal
    rw [e, e0]
    norm_num

/-- Amended C8.  The pre-strip removes every comma preceded by a digit
and followed by AT LEAST three digits (`stripSpecGo`); after splitting
on commas, fewer than 8 parts abandons the parse, an unparseable date
token also abandons it, and otherwise the first 9 trimmed parts map in
fixed order to date, asset, direction (LONG iff the token contains
"long" case-insensitively), leverage, entryPrice, exitPrice, stopLoss,
takeProfit, size, with the parts beyond the 9th joined by commas as the
journal (an 8-part line has no size and an empty journal). -/
theorem c8_quickadd_grammar_amended :
    (∀ s : String, stripGroup s = stripSpecGo [] s.data) ∧
    (∀ text : String, (splitChar ',' (stripGroup text)).length < 8 →
        parsePastedData text = none) ∧
    (∀ (text : String) (p0 p1 p2 p3 p4 p5 p6 p7 p8 : List Char) (rest : List (List Char)),
        splitChar ',' (stripGroup text) =
          p0 :: p1 :: p2 :: p3 :: p4 :: p5 :: p6 :: p7 :: p8 :: rest →
        jsDateToIso ⟨trimChars p0⟩ = none → parsePastedData text = none) ∧
    (∀ (text iso : String) (p0 p1 p2 p3 p4 p5 p6 p7 p8 : List Char) (rest : List (List Char)),
        splitChar ',' (stripGroup text) =
          p0 :: p1 :: p2 :: p3 :: p4 :: p5 :: p6 :: p7 :: p8 :: rest →
        jsDateToIso ⟨trimChars p0⟩ = some iso →
        parsePastedData text = some
          { date := iso, asset := ⟨trimChars p1⟩,
            direction := if containsLong (trimChars p2) then .long else .short,
            leverage := ⟨trimChars p3⟩,
            entryPrice := parseQuickNum (some ⟨trimChars p4⟩),
            exitPrice := parseQuickNum (some ⟨trimChars p5⟩),
            stopLoss := parseQuickNum (some ⟨trimChars p6⟩),
            takeProfit := parseQuickNum (some ⟨trimChars p7⟩),
            size := parseQuickNum (some ⟨trimChars p8⟩),
            journal := ⟨if rest.isEmpty then [] else trimChars (joinWithComma rest)⟩ }) ∧
    (∀ (text iso : String) (p0 p1 p2 p3 p4 p5 p6 p7 : List Char),
        splitChar ',' (stripGroup text) = [p0, p1, p2, p3, p4, p5, p6, p7] →
        jsDateToIso ⟨trimChars p0⟩ = some iso →
        parsePastedData text = some
          { date := iso, asset := ⟨trimChars p1⟩,
            direction := if containsLong (trimChars p2) then .long else .short,
            leverage := ⟨trimChars p3⟩,
            entryPrice := parseQuickNum (some ⟨trimChars p4⟩),
            exitPrice := parseQuickNum (some ⟨trimChars p5⟩),
            stopLoss := parseQuickNum (some ⟨trimChars p6⟩),
            takeProfit := parseQuickNum (some ⟨trimChars p7⟩),
            size := none, journal := "" }) := by
  refine ⟨fun s => stripGroupAux_eq_go s.data [], fun text h => ?_,
    fun text p0 p1 p2 p3 p4 p5 p6 p7 p8 rest hs hd => ?_,
    fun text iso p0 p1 p2 p3 p4 p5 p6 p7 p8 rest hs hd => ?_,
    fun text iso p0 p1 p2 p3 p4 p5 p6 p7 hs hd => ?_⟩
  · unfold parsePastedData parsePastedWith
    rw [if_pos h]
  · unfold parsePastedData parsePastedWith
    rw [hs]
    simp only [List.length_cons, List.take, List.map, List.drop]
    norm_num
    rw [hd]
  · unfold parsePastedData parsePastedWith
    rw [hs]
    simp only [List.length_cons, List.take, List.map, List.drop]
    norm_num
    rw [hd]
    rcases rest with _ | ⟨r, rs⟩
    · norm_num
    · simp
  · unfold parsePastedData parsePastedWith
    rw [hs]
    simp only [List.length_cons, List.take, List.map, List.drop]
    norm_num
    rw [hd]
    rfl

/-- Witness for the amended C8 on a 9-part line with no grouping
commas. -/
theorem c8_quickadd_grammar_amended_witness :
    parsePastedData "2024-01-02,ETH,Long,5x,10,12,9,13,2" = some
      { date := "2024-01-02", asset := ⟨trimChars ['E', 'T', 'H']⟩,
        direction := if containsLong (trimChars ['L', 'o', 'n', 'g']) then .long else .short,
        leverage := ⟨trimChars ['5', 'x']⟩,
        entryPrice := parseQuickNum (some ⟨trimChars ['1', '0']⟩),
        exitPrice := parseQuickNum (some ⟨trimChars ['1', '2']⟩),
        stopLoss := parseQuickNum (some ⟨trimChars ['9']⟩),
        takeProfit := parseQuickNum (some ⟨trimChars ['1', '3']⟩),
        size := parseQuickNum (some ⟨trimChars ['2']⟩),
        journal := ⟨if (List.nil (α := List Char)).isEmpty then []
          else trimChars (joinWithComma [])⟩ } :=
  c8_quickadd_grammar_amended.2.2.2.1 "2024-01-02,ETH,Long,5x,10,12,9,13,2" "2024-01-02"
    ['2', '0', '2', '4', '-', '0', '1', '-', '0', '2'] ['E', 'T', 'H'] ['L', 'o', 'n', 'g']
    ['5', 'x'] ['1', '0'] ['1', '2'] ['9'] ['1', '3'] ['2'] [] (by decide) (by decide)
